import Mathlib

/-!
Verification development for the data-tools module of `pure_ocean_breeze`
(`src/pure_ocean_breeze/data/tools.py`).

Shallow embedding conventions:
* timestamps (`date`) and entity identifiers (`code`) are modelled as `Nat`
  (both carry only a total order and equality in the source);
* numeric cell values are modelled as `Rat`; a missing / NaN value is `none`
  in an `Option Rat`;
* a fallible pandas/numpy call is modelled as `Except String`, the string
  being the message of the exception the library raises;
* the user supplied statistic function (`func` in `func_two_daily`, with the
  shape of `corr_in` in `corr_two_daily`: it receives the two factor slices
  and the date slice of one window and returns a pair of a timestamp and a
  possibly-NaN scalar) is a parameter of type `Stat`.
-/

instance {ε α : Type} [DecidableEq ε] [DecidableEq α] : DecidableEq (Except ε α) := fun
  | .error a, .error b =>
    if h : a = b then isTrue (by rw [h])
    else isFalse (fun hh => by cases hh; exact h rfl)
  | .error _, .ok _ => isFalse (fun h => by cases h)
  | .ok _, .error _ => isFalse (fun h => by cases h)
  | .ok a, .ok b =>
    if h : a = b then isTrue (by rw [h])
    else isFalse (fun hh => by cases hh; exact h rfl)

/-- Shape of the caller supplied statistic (`func` in `func_two_daily`,
for example `corr_in` in `corr_two_daily`): two factor-value windows plus the
date window in, a `(timestamp, value)` pair out, where the value may be NaN. -/
abbrev Stat : Type := List ℚ → List ℚ → List ℕ → ℕ × Option ℚ

/-- One row of the long joined table `twins` built by `merge_many` inside
`func_two_daily` (source lines 435-437): columns `date`, `code`, `fac1`,
`fac2`. -/
structure LRow where
  date : ℕ
  code : ℕ
  fac1 : ℚ
  fac2 : ℚ
deriving DecidableEq

/-- A wide panel: `index`(time) rows times `code` columns, cells possibly
missing.  This models the `pd.DataFrame`s taken and returned by
`func_two_daily` (index = time, columns = entity codes). -/
structure Wide where
  cols : List ℕ
  rows : List (ℕ × List (Option ℚ))
deriving DecidableEq

/-- Result rows of `npext.rolling_apply`: a length-`k` table whose first
`window - 1` rows are NaN padding (`none`) and whose remaining rows are the
`(timestamp, value)` pairs returned by the statistic on each window. -/
abbrev RollOut : Type := List (Option (ℕ × Option ℚ))

/-- Ascending sort of a list of naturals; models the ascending ordering
pandas applies to group keys (`groupby(sort=True)`) and to pivot axes. -/
def sortNat (l : List ℕ) : List ℕ :=
  List.insertionSort (· ≤ ·) l

/-- Comparison used by `df.sort_values(["date"])` inside `func_rolling`. -/
def dateLe (a b : LRow) : Prop :=
  a.date ≤ b.date

instance : DecidableRel dateLe := fun a b => Nat.decLe a.date b.date

instance : IsTotal LRow dateLe :=
  ⟨fun a b => Nat.le_total a.date b.date⟩

instance : IsTrans LRow dateLe :=
  ⟨fun _ _ _ h h2 => Nat.le_trans h h2⟩

/-- `df.sort_values(["date"])` (source line 428): re-sort the group rows
ascending by date.  Modelled as a stable insertion sort; on the small arrays
exercised by the concrete theorems below this coincides with the numpy
argsort pandas performs. -/
def sortRows (rows : List LRow) : List LRow :=
  List.insertionSort dateLe rows

/-- Core of `npext.rolling_apply` (numpy_ext) for a valid window `w ≥ 1` on
arrays of common length `k ≥ w`: the library pads with `window - 1` leading
NaN rows (`prepend_na`) and then emits one statistic result per window start
`s`, the window being the `w` consecutive entries starting at `s`. -/
def rollingApplyCore (stat : Stat) (w : ℕ) (f1 f2 : List ℚ) (dd : List ℕ) :
    RollOut :=
  List.replicate (w - 1) none ++
    (List.range (dd.length + 1 - w)).map (fun s =>
      some (stat ((f1.drop s).take w) ((f2.drop s).take w) ((dd.drop s).take w)))

/-- `npext.rolling_apply(the_func, rolling_window, df.fac1, df.fac2, df.date,
n_jobs=6)` (source lines 430-432).  The library raises when the arrays are
shorter than the window, and its NaN padding step `prepend_na(arr, window-1)`
raises a numpy `ValueError` for a non-positive window (negative padding
length); otherwise it returns the padded result table. -/
def rolling_apply (stat : Stat) (w : ℤ) (f1 f2 : List ℚ) (dd : List ℕ) :
    Except String RollOut :=
  if (dd.length : ℤ) < w then
    .error "ValueError: array.size should be bigger than window"
  else if w ≤ 0 then
    .error "ValueError: negative dimensions are not allowed"
  else
    .ok (rollingApplyCore stat w.toNat f1 f2 dd)

/-- `func_rolling` (source lines 427-433): sort the entity group by date;
if the group has strictly more rows than the window, run the rolling apply
and return its table, otherwise fall through and return Python `None`
(modelled as `none`). -/
def func_rolling (stat : Stat) (w : ℤ) (rows : List LRow) :
    Except String (Option RollOut) :=
  let df := sortRows rows
  if w < (df.length : ℤ) then
    (rolling_apply stat w (df.map LRow.fac1) (df.map LRow.fac2)
      (df.map LRow.date)).map some
  else
    .ok none

/-- Pure value of `func_rolling` for a positive window, where the library
cannot raise (`func_rolling_eq_pure` below proves the agreement). -/
def funcRollingPure (stat : Stat) (w : ℤ) (rows : List LRow) : Option RollOut :=
  if w < ((sortRows rows).length : ℤ) then
    some (rollingApplyCore stat w.toNat ((sortRows rows).map LRow.fac1)
      ((sortRows rows).map LRow.fac2) ((sortRows rows).map LRow.date))
  else
    none

/-- Group keys of `twins.groupby(["code"])` (source line 437): the distinct
codes, in ascending order (`groupby` sorts keys by default). -/
def groupCodes (twins : List LRow) : List ℕ :=
  sortNat (twins.map LRow.code).dedup

/-- Rows of one `groupby` group: the rows carrying `code = c`, in original
row order. -/
def groupRows (twins : List LRow) (c : ℕ) : List LRow :=
  twins.filter (fun r => r.code == c)

/-- `groupby(...).progress_apply(func_rolling)` evaluated group by group in
ascending key order; the first exception raised inside a group propagates. -/
def applyGroups (stat : Stat) (w : ℤ) (twins : List LRow) :
    List ℕ → Except String (List (ℕ × Option RollOut))
  | [] => .ok []
  | c :: cs =>
    match func_rolling stat w (groupRows twins c) with
    | .error e => .error e
    | .ok r =>
      match applyGroups stat w twins cs with
      | .error e => .error e
      | .ok rest => .ok ((c, r) :: rest)

/-- `corrs = twins.groupby(["code"]).progress_apply(func_rolling)`
(source line 437): the per-code rolling results, keyed by code. -/
def corrsExpr (stat : Stat) (w : ℤ) (twins : List LRow) :
    Except String (List (ℕ × Option RollOut)) :=
  applyGroups stat w twins (groupCodes twins)

/-- Concatenation of a list of row lists; models `pd.concat` over the
per-group dataframes accumulated in `cor` (source line 442). -/
def concatMap (f : α → List β) (l : List α) : List β :=
  (l.map f).foldr (fun a b => a ++ b) []

/-- The loop body `pd.DataFrame(corrs.iloc[i]).dropna().assign(code=...)`
(source line 440) for one group that did produce a table: `dropna()` deletes
every row containing a NaN, which removes both the leading padding rows and
the rows whose statistic value is NaN; the surviving rows are tagged with the
group code, giving `(date, value, code)` triples. -/
def dropnaRows (c : ℕ) (arr : RollOut) : List (ℕ × ℚ × ℕ) :=
  arr.filterMap (fun e =>
    e.bind (fun dv => dv.2.map (fun v => (dv.1, v, c))))

/-- The whole assembly loop plus `pd.concat` (source lines 438-442): groups
whose `func_rolling` returned `None` contribute nothing
(`pd.DataFrame(None)` is empty), the rest contribute their dropna-ed rows. -/
def assemble (corrs : List (ℕ × Option RollOut)) : List (ℕ × ℚ × ℕ) :=
  concatMap (fun p =>
    match p.2 with
    | none => []
    | some arr => dropnaRows p.1 arr) corrs

/-- The dropna-ed result rows of all groups, computed without the `Except`
plumbing (used to state what the pipeline produces for a positive window). -/
def survivors (stat : Stat) (w : ℤ) (twins : List LRow) : List (ℕ × ℚ × ℕ) :=
  assemble ((groupCodes twins).map (fun c =>
    (c, funcRollingPure stat w (groupRows twins c))))

/-- The table built by `cors.pivot(index="date", columns="code",
values="corr")` when the `(date, code)` keys are distinct: time axis = the
distinct result dates ascending, entity axis = the distinct result codes
ascending, cell = the value of the unique matching row, `none` where no row
exists. -/
def mkPanel (cors : List (ℕ × ℚ × ℕ)) : Wide :=
  { cols := sortNat (cors.map (fun t => t.2.2)).dedup,
    rows := (sortNat (cors.map (fun t => t.1)).dedup).map (fun d =>
      (d, (sortNat (cors.map (fun t => t.2.2)).dedup).map (fun c =>
        (cors.find? (fun t => t.1 == d && t.2.2 == c)).map (fun t => t.2.1)))) }

/-- `cors.pivot(...)` (source line 444): pandas raises when two rows share
the same `(date, code)` key, otherwise it builds the wide panel. -/
def pivot (cors : List (ℕ × ℚ × ℕ)) : Except String Wide :=
  if ((cors.map (fun t => (t.1, t.2.2))).Nodup) then
    .ok (mkPanel cors)
  else
    .error "ValueError: Index contains duplicate entries, cannot reshape"

/-- Lines 436-445 of the source: the grouped rolling evaluation and result
assembly that `func_two_daily` performs on the joined long table `twins`.
When every group returned `None` (or there are no groups at all) the `cor`
list is empty and `pd.concat` raises; otherwise the assembled rows are
pivoted into the wide result panel. -/
def rollingPipeline (stat : Stat) (w : ℤ) (twins : List LRow) :
    Except String Wide :=
  match corrsExpr stat w twins with
  | .error e => .error e
  | .ok corrs =>
    if corrs.all (fun p => p.2.isNone) then
      .error "ValueError: No objects to concatenate"
    else
      pivot (assemble corrs)

/-- `df.stack().reset_index()` on one wide panel (source line 371): one
`(date, code, value)` row per present (non-missing) cell, rows ordered by
date then column order; missing cells are skipped by `stack`. -/
def stack (p : Wide) : List (ℕ × ℕ × ℚ) :=
  concatMap (fun dr =>
    (p.cols.zip dr.2).filterMap (fun cv =>
      cv.2.map (fun v => (dr.1, cv.1, v)))) p.rows

/-- `merge_many` (source lines 353-374).  The function stacks and renames the
input panels, then runs `df = reduce(lambda x, y: pd.merge(x, y, on=["date",
"code"]))` — but the iterable argument `dfs` of `reduce` is missing, so the
call unconditionally raises `TypeError: reduce expected at least 2 arguments,
got 1` before any merging happens, for every input. -/
def merge_many (dfs : List Wide) (names : Option (List String)) :
    Except String (List LRow) :=
  let _names := names.getD ((List.range dfs.length).map
    (fun i => "fac" ++ toString (i + 1)))
  let _stacked := dfs.map stack
  .error "TypeError: reduce expected at least 2 arguments, got 1"

/-- `func_two_daily` (source lines 403-445): join the two factor panels with
`merge_many`, then run the grouped rolling evaluation and assembly.  Because
`merge_many` always raises (see `merge_many`), so does `func_two_daily`. -/
def func_two_daily (stat : Stat) (w : ℤ) (df1 df2 : Wide) :
    Except String Wide :=
  match merge_many [df1, df2] none with
  | .error e => .error e
  | .ok twins => rollingPipeline stat w twins

/-- A time-indexed table as consumed by `drop_duplicates_index`: a named
index of timestamps, named value columns, one list of cell values per row. -/
structure TDF where
  indexName : String
  cols : List String
  rows : List (ℕ × List ℚ)
deriving DecidableEq

/-- `drop_duplicates(subset=["date"], keep="first")`: keep a row only when
its key has not already appeared above it. -/
def dropDupFirst : List (ℕ × List ℚ) → List ℕ → List (ℕ × List ℚ)
  | [], _ => []
  | r :: rs, seen =>
    if r.1 ∈ seen then dropDupFirst rs seen
    else r :: dropDupFirst rs (r.1 :: seen)

/-- `drop_duplicates_index` (source lines 448-465): `reset_index()` turns the
index into the first column, the first column is renamed to `"date"`,
`drop_duplicates(subset=["date"], keep="first")` keeps the first row of each
date, and `set_index("date")` makes the date column the index again.  Net
effect: rows deduplicated by index value keeping the first occurrence, value
columns untouched, index now named `"date"` whatever it was named before. -/
def drop_duplicates_index (new : TDF) : TDF :=
  { indexName := "date",
    cols := new.cols,
    rows := dropDupFirst new.rows [] }

/-- Value equality of two tables in the sense of `pandas.DataFrame.equals`,
which compares shapes and cell/axis values but not axis names
(`Index.equals` ignores the index name). -/
def TDF.valueEq (a b : TDF) : Prop :=
  a.cols = b.cols ∧ a.rows = b.rows

/-- Python `x[n]` on a sequence: non-negative indices from the front,
negative indices from the back, `none` (an `IndexError`) out of range. -/
def pyGetItem (xs : List ℚ) (n : ℤ) : Option ℚ :=
  if 0 ≤ n then xs.get? n.toNat
  else if n + (xs.length : ℤ) < 0 then none
  else xs.get? (n + (xs.length : ℤ)).toNat

/-- `get_value_single` (source lines 129-133): `try: return x[n]` with every
exception turned into NaN — so the cell is the extracted element on success
and NaN (`none`) whenever the extraction raises. -/
def get_value_single (x : List ℚ) (n : ℤ) : Option ℚ :=
  pyGetItem x n

/-- `get_value` (source lines 113-136): `df.applymap` of `get_value_single`,
i.e. the elementwise extraction over a table whose cells are sequences. -/
def get_value (df : List (List (List ℚ))) (n : ℤ) :
    List (List (Option ℚ)) :=
  df.map (fun row => row.map (fun x => get_value_single x n))

/-- Statistic used by the concrete scenarios: returns the last date of the
window as the timestamp (exactly as `corr_in` does via `c.iloc[-1]`) and the
constant 1 as the value. -/
def statLast : Stat := fun _ _ c => (c.getLastD 0, some 1)

/-- Statistic whose value depends on the window content (first entry of the
`fac1` slice); timestamp as in `corr_in`. -/
def statHead : Stat := fun a _ c => (c.getLastD 0, some (a.headD 0))

/-- Single entity, dates 1..25, 25 observations: the joined table of the
spec scenario in section 8 item 6. -/
def twins25 : List LRow :=
  (List.range 25).map (fun i => ⟨i + 1, 0, 0, 0⟩)

/-- Single entity, dates 1..3: a minimal joined table with k = 3. -/
def twins3 : List LRow :=
  (List.range 3).map (fun i => ⟨i + 1, 0, 0, 0⟩)

/-- Two rows of one entity sharing the same timestamp but carrying different
factor values. -/
def twinsDup : List LRow :=
  [⟨5, 0, 1, 0⟩, ⟨5, 0, 2, 0⟩]

/-- The same two rows in the opposite order (a shuffle of `twinsDup`). -/
def twinsDupSh : List LRow :=
  [⟨5, 0, 2, 0⟩, ⟨5, 0, 1, 0⟩]

/-- Two rows of one entity with distinct timestamps. -/
def twinsPair : List LRow :=
  [⟨1, 0, 3, 4⟩, ⟨2, 0, 5, 6⟩]

/-- The same two rows in the opposite order. -/
def twinsPairSh : List LRow :=
  [⟨2, 0, 5, 6⟩, ⟨1, 0, 3, 4⟩]

/-- A joined table with a single observation for its single entity. -/
def twins1 : List LRow :=
  [⟨1, 7, 0, 0⟩]

/-- A one-cell wide panel. -/
def wideA : Wide :=
  { cols := [3], rows := [(1, [some 2])] }

/-- Another one-cell wide panel over the same key. -/
def wideB : Wide :=
  { cols := [3], rows := [(1, [some 4])] }

/-- A time-indexed table whose index is not named `"date"` and whose index
values are already distinct. -/
def tdfA : TDF :=
  { indexName := "idx", cols := ["x"], rows := [(1, [2]), (2, [3])] }

/-- A table of sequence-valued cells for the `get_value` witnesses. -/
def dfSample : List (List (List ℚ)) :=
  [[[5, 7]]]

set_option synthInstance.maxSize 1024 in
instance : DecidableEq (List (ℕ × Option RollOut)) :=
  inferInstance

theorem dropDupFirst_sublist :
    ∀ (rows : List (ℕ × List ℚ)) (seen : List ℕ),
      (dropDupFirst rows seen).Sublist rows
  | [], _ => List.Sublist.refl _
  | r :: rs, seen => by
    unfold dropDupFirst
    by_cases h : r.1 ∈ seen
    · simpa [h] using List.Sublist.cons r (dropDupFirst_sublist rs seen)
    · simpa [h] using List.Sublist.cons₂ r (dropDupFirst_sublist rs (r.1 :: seen))

theorem dropDupFirst_keys :
    ∀ (rows : List (ℕ × List ℚ)) (seen : List ℕ),
      ((dropDupFirst rows seen).map Prod.fst).Nodup
      ∧ ∀ k ∈ (dropDupFirst rows seen).map Prod.fst, k ∉ seen
  | [], _ => by simp [dropDupFirst]
  | r :: rs, seen => by
    unfold dropDupFirst
    by_cases h : r.1 ∈ seen
    · simpa [h] using dropDupFirst_keys rs seen
    · have ih := dropDupFirst_keys rs (r.1 :: seen)
      rw [if_neg h]
      constructor
      · simp only [List.map_cons, List.nodup_cons]
        exact ⟨fun hmem => (ih.2 r.1 hmem) (by simp), ih.1⟩
      · intro k hk
        simp only [List.map_cons, List.mem_cons] at hk
        rcases hk with hk | hk
        · exact hk ▸ h
        · intro hks
          exact (ih.2 k hk) (by simp [hks])

theorem dropDupFirst_find? :
    ∀ (rows : List (ℕ × List ℚ)) (seen : List ℕ) (d : ℕ), d ∉ seen →
      (dropDupFirst rows seen).find? (fun r => r.1 == d) =
        rows.find? (fun r => r.1 == d)
  | [], _, _, _ => rfl
  | r :: rs, seen, d, hd => by
    unfold dropDupFirst
    by_cases h : r.1 ∈ seen
    · have hne : (r.1 == d) = false := by
        simp only [beq_eq_false_iff_ne, ne_eq]
        intro he; exact hd (he ▸ h)
      simp only [h, if_true, List.find?_cons, hne]
      exact dropDupFirst_find? rs seen d hd
    · by_cases he : r.1 = d
      · rw [if_neg h]
        simp [List.find?_cons, he]
      · have hne : (r.1 == d) = false := by simpa using he
        simp only [h, if_false, List.find?_cons, hne]
        exact dropDupFirst_find? rs (r.1 :: seen) d (by
          simp only [List.mem_cons, not_or]
          exact ⟨fun hc => he hc.symm, hd⟩)

theorem dropDupFirst_of_nodup :
    ∀ (rows : List (ℕ × List ℚ)) (seen : List ℕ),
      (rows.map Prod.fst).Nodup → (∀ k ∈ rows.map Prod.fst, k ∉ seen) →
      dropDupFirst rows seen = rows
  | [], _, _, _ => rfl
  | r :: rs, seen, hn, hs => by
    unfold dropDupFirst
    have h1 : r.1 ∉ seen := hs r.1 (by simp)
    simp only [h1, if_false]
    congr 1
    apply dropDupFirst_of_nodup rs (r.1 :: seen)
      (by simpa [List.nodup_cons] using hn.of_cons)
    intro k hk
    simp only [List.map_cons, List.nodup_cons] at hn
    simp only [List.mem_cons, not_or]
    exact ⟨fun hc => hn.1 (hc ▸ hk), hs k (List.mem_cons_of_mem _ hk)⟩

/-- C6: for every time-indexed table, the Index Deduplicator
(`drop_duplicates_index`) keeps, among rows sharing an index value, exactly
the first occurrence in original row order (the survivor found for each date
is the first original match), discards the rest (the survivor key list has no
duplicates), preserves the original column order (`cols` unchanged) and the
relative ordering of the surviving rows (the result is a sublist of the
input rows). -/
theorem drop_duplicates_index_keeps_first (t : TDF) :
    (drop_duplicates_index t).cols = t.cols
    ∧ (drop_duplicates_index t).rows.Sublist t.rows
    ∧ (((drop_duplicates_index t).rows.map Prod.fst).Nodup)
    ∧ ∀ d : ℕ, (drop_duplicates_index t).rows.find? (fun r => r.1 == d) =
        t.rows.find? (fun r => r.1 == d) :=
  ⟨rfl, dropDupFirst_sublist t.rows [],
    (dropDupFirst_keys t.rows []).1,
    fun d => dropDupFirst_find? t.rows [] d (List.not_mem_nil d)⟩

/-- C7: the Index Deduplicator is idempotent — applying
`drop_duplicates_index` twice yields the same table as applying it once. -/
theorem drop_duplicates_index_idempotent (t : TDF) :
    drop_duplicates_index (drop_duplicates_index t) = drop_duplicates_index t := by
  unfold drop_duplicates_index
  simp only [TDF.mk.injEq, true_and]
  exact dropDupFirst_of_nodup _ [] (dropDupFirst_keys t.rows []).1
    (fun k _ => List.not_mem_nil k)

/-- C8: when the time axis already has no duplicate values, the Index
Deduplicator returns the input unchanged by value — equal in the sense of
`pandas.DataFrame.equals`, which compares axis values and cells but not the
index name (the sole field the function still rewrites; see C9) — and
literally unchanged when the index is already named `"date"`. -/
theorem drop_duplicates_index_noop (t : TDF)
    (h : (t.rows.map Prod.fst).Nodup) :
    (drop_duplicates_index t).valueEq t
    ∧ (t.indexName = "date" → drop_duplicates_index t = t) := by
  have hrows : dropDupFirst t.rows [] = t.rows :=
    dropDupFirst_of_nodup t.rows [] h (fun k _ => List.not_mem_nil k)
  constructor
  · exact ⟨rfl, hrows⟩
  · intro hname
    unfold drop_duplicates_index
    cases t
    simp_all

/-- C8 witness: a two-row table with distinct index values is returned
unchanged by value. -/
theorem drop_duplicates_index_noop_witness :
    (drop_duplicates_index tdfA).valueEq tdfA :=
  (drop_duplicates_index_noop tdfA (by decide)).1

/-- C9: whatever the input index was named, the table returned by
`drop_duplicates_index` has its index named `"date"` (the function renames
the first post-`reset_index` column unconditionally), and the original index
name has no influence at all on the result. -/
theorem drop_duplicates_index_renames (t : TDF) (s : String) :
    (drop_duplicates_index t).indexName = "date"
    ∧ drop_duplicates_index { t with indexName := s } = drop_duplicates_index t :=
  ⟨rfl, rfl⟩

/-- C10: `get_value` is total — the `try/except` inside `get_value_single`
turns every failing extraction into NaN, so no exception reaches the caller.
Cell by cell: the table shape is preserved, each output cell is the Python
`x[n]` of the corresponding input cell, and that extraction yields the
indexed element exactly on in-range indices (non-negative from the front,
negative from the back) and NaN (`none`) on every out-of-range index, where
the source `x[n]` raises. -/
theorem get_value_total (df : List (List (List ℚ))) (n : ℤ) :
    (get_value df n).map List.length = df.map List.length
    ∧ (∀ i j x, ((df.get? i).bind (fun row => row.get? j)) = some x →
        ((get_value df n).get? i).bind (fun row => row.get? j) =
          some (pyGetItem x n))
    ∧ ∀ x : List ℚ,
        (0 ≤ n → pyGetItem x n = x.get? n.toNat)
        ∧ (n < 0 → -(x.length : ℤ) ≤ n →
            pyGetItem x n = x.get? (n + (x.length : ℤ)).toNat)
        ∧ (n < -(x.length : ℤ) ∨ (x.length : ℤ) ≤ n → pyGetItem x n = none) := by
  refine ⟨?_, ?_, ?_⟩
  · unfold get_value
    rw [List.map_map]
    exact List.map_congr_left (fun row _ => by simp)
  · intro i j x h
    cases hrow : df.get? i with
    | none =>
      rw [hrow] at h
      simp at h
    | some row =>
      rw [hrow, Option.some_bind] at h
      unfold get_value
      rw [List.get?_map, hrow, Option.map_some', Option.some_bind,
        List.get?_map, h, Option.map_some']
      rfl
  · intro x
    refine ⟨?_, ?_, ?_⟩
    · intro h0
      simp [pyGetItem, h0]
    · intro hneg hge
      have h0 : ¬ 0 ≤ n := by omega
      have h1 : ¬ (n + (x.length : ℤ) < 0) := by omega
      simp [pyGetItem, h0, h1]
    · intro hout
      rcases hout with hout | hout
      · have h0 : ¬ 0 ≤ n := by
          have : (0 : ℤ) ≤ x.length := Int.ofNat_nonneg _
          omega
        have h1 : n + (x.length : ℤ) < 0 := by omega
        simp [pyGetItem, h0, h1]
      · have h0 : 0 ≤ n := by
          have : (0 : ℤ) ≤ x.length := Int.ofNat_nonneg _
          omega
        simp only [pyGetItem, h0, if_true, List.get?_eq_none]
        omega

/-- C10 witness: on a concrete one-cell table of a two-element sequence,
index 1 extracts the second element through the pipeline, a negative index
counts from the back, and an out-of-range index yields NaN. -/
theorem get_value_total_witness :
    ((get_value dfSample 1).get? 0).bind (fun row => row.get? 0) =
      some (pyGetItem [(5 : ℚ), 7] 1)
    ∧ pyGetItem [(5 : ℚ), 7] (-1) = [(5 : ℚ), 7].get? 1
    ∧ pyGetItem [(5 : ℚ), 7] 9 = none :=
  ⟨(get_value_total dfSample 1).2.1 0 0 [(5 : ℚ), 7] (by decide),
    ((get_value_total dfSample (-1)).2.2 [(5 : ℚ), 7]).2.1 (by decide) (by decide),
    ((get_value_total dfSample 9).2.2 [(5 : ℚ), 7]).2.2 (by decide)⟩

/-- C2: contrary to the claim, `merge_many` cannot produce the inner join at
all — its `reduce(lambda x, y: pd.merge(x, y, on=["date", "code"]))` call on
source line 373 omits the iterable argument `dfs`, so every invocation, here
shown on two overlapping one-cell panels as well as on the empty panel list,
raises `TypeError: reduce expected at least 2 arguments, got 1` instead of
returning the joined long table. -/
theorem merge_many_always_raises :
    merge_many [wideA, wideB] none =
      .error "TypeError: reduce expected at least 2 arguments, got 1"
    ∧ ∀ (dfs : List Wide) (names : Option (List String)),
        merge_many dfs names =
          .error "TypeError: reduce expected at least 2 arguments, got 1" :=
  ⟨rfl, fun _ _ => rfl⟩

theorem sortRows_length (l : List LRow) : (sortRows l).length = l.length :=
  List.length_insertionSort dateLe l

theorem filterMap_id_replicate_none {α : Type} :
    ∀ m : ℕ, (List.replicate m (none : Option α)).filterMap id = []
  | 0 => rfl
  | m + 1 => by
    simp [List.replicate_succ, List.filterMap_cons,
      filterMap_id_replicate_none m]

theorem filterMap_some_eq_map {α β : Type} (g : α → β) :
    ∀ l : List α, l.filterMap (fun a => some (g a)) = l.map g
  | [] => rfl
  | a :: l => by
    simp [List.filterMap_cons, filterMap_some_eq_map g l]

theorem rollingApplyCore_filterMap (stat : Stat) (w : ℕ) (f1 f2 : List ℚ)
    (dd : List ℕ) :
    (rollingApplyCore stat w f1 f2 dd).filterMap id =
      (List.range (dd.length + 1 - w)).map (fun s =>
        stat ((f1.drop s).take w) ((f2.drop s).take w) ((dd.drop s).take w)) := by
  unfold rollingApplyCore
  rw [List.filterMap_append, filterMap_id_replicate_none, List.nil_append,
    List.filterMap_map]
  exact filterMap_some_eq_map _ _

theorem func_rolling_eq_pure (stat : Stat) (w : ℤ) (rows : List LRow)
    (hw : 1 ≤ w) :
    func_rolling stat w rows = .ok (funcRollingPure stat w rows) := by
  unfold func_rolling funcRollingPure
  by_cases h : w < ((sortRows rows).length : ℤ)
  · rw [if_pos h, if_pos h]
    unfold rolling_apply
    have h1 : ¬ (((sortRows rows).map LRow.date).length : ℤ) < w := by
      rw [List.length_map]; omega
    have h2 : ¬ w ≤ 0 := by omega
    rw [if_neg h1, if_neg h2]
    rfl
  · rw [if_neg h, if_neg h]

/-- C1 (amended): for a positive window `w` and an entity group of `k` rows,
the rolling evaluator emits one result per window start, i.e. exactly
`k - w + 1` result rows when `k > w`, each computed over the `w` consecutive
date-sorted rows starting at that position; it produces nothing (`None`)
when `k ≤ w`; and on the concrete 25-observation, window-20 scenario it
emits exactly 6 result rows timestamped at rows 20-25 of the time axis (not
5 rows at rows 21-25 as claimed). -/
theorem rolling_window_count (stat : Stat) (w : ℤ) (rows : List LRow)
    (hw : 1 ≤ w) :
    (w < (rows.length : ℤ) →
      (func_rolling stat w rows).map (Option.map (List.filterMap id)) =
        .ok (some ((List.range (rows.length + 1 - w.toNat)).map (fun s =>
          stat ((((sortRows rows).map LRow.fac1).drop s).take w.toNat)
            ((((sortRows rows).map LRow.fac2).drop s).take w.toNat)
            ((((sortRows rows).map LRow.date).drop s).take w.toNat))))
      ∧ (func_rolling stat w rows).map
          (Option.map (fun o => (o.filterMap id).length)) =
        .ok (some (rows.length + 1 - w.toNat)))
    ∧ ((rows.length : ℤ) ≤ w → func_rolling stat w rows = .ok none)
    ∧ (func_rolling statLast 20 twins25).map (Option.map (List.filterMap id)) =
        .ok (some ((List.range 6).map (fun s => (20 + s, some (1 : ℚ))))) := by
  refine ⟨?_, ?_, by decide⟩
  · intro h
    have hlen : (sortRows rows).length = rows.length := sortRows_length rows
    have h' : w < ((sortRows rows).length : ℤ) := by rw [hlen]; exact_mod_cast h
    rw [func_rolling_eq_pure stat w rows hw]
    unfold funcRollingPure
    rw [if_pos h']
    have hcore := rollingApplyCore_filterMap stat w.toNat
      ((sortRows rows).map LRow.fac1) ((sortRows rows).map LRow.fac2)
      ((sortRows rows).map LRow.date)
    have hdd : ((sortRows rows).map LRow.date).length = rows.length := by
      rw [List.length_map, hlen]
    rw [hdd] at hcore
    constructor
    · show Except.ok (some ((rollingApplyCore stat w.toNat _ _ _).filterMap id)) = _
      rw [hcore]
    · show Except.ok (some ((rollingApplyCore stat w.toNat _ _ _).filterMap id).length) = _
      rw [hcore, List.length_map, List.length_range]
  · intro h
    have h' : ¬ w < ((sortRows rows).length : ℤ) := by
      rw [sortRows_length]; omega
    unfold func_rolling
    rw [if_neg h']

/-- C1 witness: a single-entity group of 3 observations with window 2 yields
the two windows ending at dates 2 and 3. -/
theorem rolling_window_count_witness :
    (func_rolling statLast 2 twins3).map (Option.map (List.filterMap id)) =
      .ok (some [(2, some (1 : ℚ)), (3, some 1)]) := by
  have h := ((rolling_window_count statLast 2 twins3 (by decide)).1 (by decide)).1
  exact h.trans (by decide)

/-- C1 counterexample: on the 25-observation, window-20 scenario of the
claim, the evaluator emits 6 result rows, not the claimed `k - w = 5`. -/
theorem rolling_window_count_counterexample :
    (func_rolling statLast 20 twins25).map
        (Option.map (fun o => (o.filterMap id).length)) = .ok (some 6)
    ∧ (6 : ℕ) ≠ 25 - 20 :=
  ⟨by decide, by decide⟩

theorem groupCodes_ne_nil {twins : List LRow} (h : twins ≠ []) :
    groupCodes twins ≠ [] := by
  intro hc
  apply h
  unfold groupCodes sortNat at hc
  have hperm := List.perm_insertionSort (· ≤ · : ℕ → ℕ → Prop)
    (twins.map LRow.code).dedup
  rw [hc] at hperm
  have hded : (twins.map LRow.code).dedup = [] := hperm.symm.eq_nil
  rw [List.dedup_eq_nil] at hded
  exact List.map_eq_nil.1 hded

theorem groupRows_ne_nil {twins : List LRow} {c : ℕ}
    (h : c ∈ groupCodes twins) : 0 < (groupRows twins c).length := by
  unfold groupCodes sortNat at h
  rw [List.mem_insertionSort, List.mem_dedup, List.mem_map] at h
  obtain ⟨r, hr, hrc⟩ := h
  have : r ∈ groupRows twins c := by
    unfold groupRows
    rw [List.mem_filter]
    exact ⟨hr, by simp [hrc]⟩
  exact List.length_pos.2 (fun hnil => by simp [hnil] at this)

theorem func_rolling_neg_window (stat : Stat) {w : ℤ} {rows : List LRow}
    (hw : w ≤ 0) (hrows : 0 < rows.length) :
    func_rolling stat w rows =
      .error "ValueError: negative dimensions are not allowed" := by
  unfold func_rolling
  have h1 : w < ((sortRows rows).length : ℤ) := by
    rw [sortRows_length]; omega
  rw [if_pos h1]
  unfold rolling_apply
  have h2 : ¬ (((sortRows rows).map LRow.date).length : ℤ) < w := by
    rw [List.length_map, sortRows_length]; omega
  rw [if_neg h2, if_pos hw]
  rfl

/-- C5 (amended): the code performs no window validation at all.  For a
non-positive window every run of the grouped rolling evaluation does fail
and no result panel is ever returned — but the failure is not a dedicated
InvalidWindow check: every nonempty entity group passes the size guard and
the error surfaces from inside the library rolling computation (the
negative-length NaN padding), or, when the table has no groups at all, from
the empty result concatenation. -/
theorem rolling_no_window_validation (stat : Stat) (w : ℤ)
    (twins : List LRow) (hw : w ≤ 0) :
    (rollingPipeline stat w twins =
        .error "ValueError: No objects to concatenate"
      ∨ rollingPipeline stat w twins =
        .error "ValueError: negative dimensions are not allowed")
    ∧ ∀ res : Wide, rollingPipeline stat w twins ≠ .ok res := by
  have hmain : rollingPipeline stat w twins =
        .error "ValueError: No objects to concatenate"
      ∨ rollingPipeline stat w twins =
        .error "ValueError: negative dimensions are not allowed" := by
    by_cases htw : twins = []
    · subst htw
      left
      rfl
    · right
      cases hc : groupCodes twins with
      | nil => exact absurd hc (groupCodes_ne_nil htw)
      | cons c cs =>
        have hmem : c ∈ groupCodes twins := by rw [hc]; exact List.mem_cons_self c cs
        have herr := func_rolling_neg_window stat hw (groupRows_ne_nil hmem)
        unfold rollingPipeline corrsExpr
        rw [hc]
        unfold applyGroups
        rw [herr]
  refine ⟨hmain, fun res h => ?_⟩
  rcases hmain with h1 | h1 <;> rw [h1] at h <;> exact Except.noConfusion h

/-- C5 witness: a nonempty one-row table with window 0 fails with one of the
two internal errors. -/
theorem rolling_no_window_validation_witness :
    rollingPipeline statHead 0 twins1 =
        .error "ValueError: No objects to concatenate"
      ∨ rollingPipeline statHead 0 twins1 =
        .error "ValueError: negative dimensions are not allowed" :=
  (rolling_no_window_validation statHead 0 twins1 (by decide)).1

/-- C5 counterexample: with window 0 on a one-row table the failure is the
numpy negative-dimensions error raised from inside the per-group rolling
computation — the code contains no InvalidWindow validation, so the claimed
immediate InvalidWindow error is never produced. -/
theorem rolling_no_invalid_window_error :
    rollingPipeline statHead 0 twins1 =
      .error "ValueError: negative dimensions are not allowed"
    ∧ "ValueError: negative dimensions are not allowed" ≠ "InvalidWindow" :=
  ⟨by decide, by decide⟩

theorem applyGroups_ok (stat : Stat) (w : ℤ) (twins : List LRow) :
    ∀ cs : List ℕ,
      (∀ c ∈ cs, func_rolling stat w (groupRows twins c) =
        .ok (funcRollingPure stat w (groupRows twins c))) →
      applyGroups stat w twins cs =
        .ok (cs.map (fun c => (c, funcRollingPure stat w (groupRows twins c))))
  | [], _ => rfl
  | c :: cs, h => by
    unfold applyGroups
    rw [h c (List.mem_cons_self c cs),
      applyGroups_ok stat w twins cs
        (fun c2 hc => h c2 (List.mem_cons_of_mem c hc))]
    rfl

theorem corrsExpr_ok (stat : Stat) (w : ℤ) (twins : List LRow) (hw : 1 ≤ w) :
    corrsExpr stat w twins =
      .ok ((groupCodes twins).map
        (fun c => (c, funcRollingPure stat w (groupRows twins c)))) :=
  applyGroups_ok stat w twins (groupCodes twins)
    (fun c _ => func_rolling_eq_pure stat w (groupRows twins c) hw)

/-- C4 (amended): rows whose statistic value is NaN are dropped before
pivoting (`survivors` keeps exactly the non-padding, non-NaN result rows);
and whenever the window is positive, at least one entity group has strictly
more observations than the window, and the surviving result rows have
pairwise distinct `(time, entity)` keys, the pipeline raises no error and
returns the pivoted panel whose time axis is exactly the distinct result
times of the surviving rows (ascending) and whose entity axis is exactly
the distinct entities of the surviving rows (ascending).  (When no group is
large enough the empty concatenation raises instead — see the
counterexample; a key collision makes the pivot raise `DuplicateKey`.) -/
theorem assembler_drops_nan_and_axes (stat : Stat) (w : ℤ)
    (twins : List LRow) (hw : 1 ≤ w)
    (hbig : ∃ c ∈ groupCodes twins, w < ((groupRows twins c).length : ℤ))
    (hkeys : ((survivors stat w twins).map (fun t => (t.1, t.2.2))).Nodup) :
    rollingPipeline stat w twins = .ok (mkPanel (survivors stat w twins))
    ∧ (mkPanel (survivors stat w twins)).rows.map Prod.fst =
        sortNat ((survivors stat w twins).map (fun t => t.1)).dedup
    ∧ (mkPanel (survivors stat w twins)).cols =
        sortNat ((survivors stat w twins).map (fun t => t.2.2)).dedup := by
  have hc := corrsExpr_ok stat w twins hw
  have hall : ((groupCodes twins).map
      (fun c => (c, funcRollingPure stat w (groupRows twins c)))).all
        (fun p => p.2.isNone) = false := by
    rw [List.all_eq_false]
    obtain ⟨c, hcmem, hclen⟩ := hbig
    have hnone : (funcRollingPure stat w (groupRows twins c)).isNone = false := by
      unfold funcRollingPure
      rw [if_pos (show w < ((sortRows (groupRows twins c)).length : ℤ) by
        rw [sortRows_length]; omega)]
      rfl
    exact ⟨(c, funcRollingPure stat w (groupRows twins c)),
      List.mem_map_of_mem _ hcmem, by simp [hnone]⟩
  refine ⟨?_, ?_, rfl⟩
  · unfold rollingPipeline
    rw [hc]
    show (if _ then _ else _) = _
    rw [if_neg (by rw [hall]; exact Bool.false_ne_true)]
    show pivot (survivors stat w twins) = _
    unfold pivot
    rw [if_pos hkeys]
  · unfold mkPanel
    rw [List.map_map]
    exact (List.map_congr_left (fun d _ => rfl)).trans (List.map_id _)

/-- C4 witness: two observations of one entity with window 1 survive in
full, and the pipeline returns the pivoted panel built from them. -/
theorem assembler_drops_nan_and_axes_witness :
    rollingPipeline statHead 1 twinsPair =
      .ok (mkPanel (survivors statHead 1 twinsPair)) :=
  (assembler_drops_nan_and_axes statHead 1 twinsPair (by decide) (by decide)
    (by decide)).1

/-- C4 counterexample: on a table whose only entity group has no more rows
than the window, every group yields `None`, the `cor` list stays empty, and
`pd.concat` raises — so the pipeline does raise an error for this input
instead of returning a panel with the claimed axes. -/
theorem assembler_raises_on_all_small_groups :
    rollingPipeline statLast 20 twins1 =
      .error "ValueError: No objects to concatenate" := by
  decide

theorem sortNat_eq_of_perm {l1 l2 : List ℕ} (h : l1.Perm l2) :
    sortNat l1 = sortNat l2 :=
  List.eq_of_perm_of_sorted
    ((List.perm_insertionSort _ l1).trans
      (h.trans (List.perm_insertionSort _ l2).symm))
    (List.sorted_insertionSort _ l1) (List.sorted_insertionSort _ l2)

theorem sorted_dateLt_of_nodup {l : List LRow} (hs : l.Sorted dateLe)
    (hn : (l.map LRow.date).Nodup) :
    l.Pairwise (fun a b => a.date < b.date) := by
  have hne : l.Pairwise (fun a b => a.date ≠ b.date) := List.pairwise_map.1 hn
  exact (List.Pairwise.and hs hne).imp (fun h => lt_of_le_of_ne h.1 h.2)

theorem sortRows_eq_of_perm {l1 l2 : List LRow} (h : l1.Perm l2)
    (hn : (l1.map LRow.date).Nodup) : sortRows l1 = sortRows l2 := by
  have hperm : (sortRows l1).Perm (sortRows l2) :=
    (List.perm_insertionSort _ l1).trans
      (h.trans (List.perm_insertionSort _ l2).symm)
  have hn1 : ((sortRows l1).map LRow.date).Nodup :=
    (List.Perm.map LRow.date (List.perm_insertionSort dateLe l1)).nodup_iff.2 hn
  have hn2 : ((sortRows l2).map LRow.date).Nodup :=
    (List.Perm.map LRow.date hperm).nodup_iff.1 hn1
  have hs1 := sorted_dateLt_of_nodup (List.sorted_insertionSort dateLe l1) hn1
  have hs2 := sorted_dateLt_of_nodup (List.sorted_insertionSort dateLe l2) hn2
  haveI : IsAntisymm LRow (fun a b => a.date < b.date) :=
    ⟨fun _ _ hab hba => (Nat.lt_asymm hab hba).elim⟩
  exact List.eq_of_perm_of_sorted hperm hs1 hs2

theorem func_rolling_congr {stat : Stat} {w : ℤ} {r1 r2 : List LRow}
    (h : sortRows r1 = sortRows r2) :
    func_rolling stat w r1 = func_rolling stat w r2 := by
  unfold func_rolling
  rw [h]

theorem applyGroups_congr (stat : Stat) (w : ℤ) (t1 t2 : List LRow) :
    ∀ cs : List ℕ,
      (∀ c ∈ cs, func_rolling stat w (groupRows t1 c) =
        func_rolling stat w (groupRows t2 c)) →
      applyGroups stat w t1 cs = applyGroups stat w t2 cs
  | [], _ => rfl
  | c :: cs, h => by
    unfold applyGroups
    rw [h c (List.mem_cons_self c cs),
      applyGroups_congr stat w t1 t2 cs
        (fun c2 hc => h c2 (List.mem_cons_of_mem c hc))]

/-- C3 (amended): permuting the rows of the joined table before grouping
leaves the grouped rolling output — and hence the whole pipeline result —
unchanged, provided the timestamps within each entity group are pairwise
distinct.  The evaluator does re-sort each group ascending by time, but on
duplicate timestamps the tie order follows the (permuted) incoming row
order, so shuffle-invariance fails in general (see the counterexample). -/
theorem shuffle_invariance (stat : Stat) (w : ℤ)
    (twins twinsSh : List LRow) (hp : twinsSh.Perm twins)
    (hd : ∀ c ∈ groupCodes twins, ((groupRows twins c).map LRow.date).Nodup) :
    corrsExpr stat w twinsSh = corrsExpr stat w twins
    ∧ rollingPipeline stat w twinsSh = rollingPipeline stat w twins := by
  have hcodes : groupCodes twinsSh = groupCodes twins :=
    sortNat_eq_of_perm ((hp.map LRow.code).dedup)
  have hcorrs : corrsExpr stat w twinsSh = corrsExpr stat w twins := by
    unfold corrsExpr
    rw [hcodes]
    apply applyGroups_congr
    intro c hc
    have hgperm : (groupRows twinsSh c).Perm (groupRows twins c) :=
      List.Perm.filter _ hp
    have hgn : ((groupRows twinsSh c).map LRow.date).Nodup :=
      (List.Perm.map LRow.date hgperm).nodup_iff.2 (hd c hc)
    exact func_rolling_congr (sortRows_eq_of_perm hgperm hgn)
  refine ⟨hcorrs, ?_⟩
  unfold rollingPipeline
  rw [hcorrs]

/-- C3 witness: reversing a two-row single-entity table with distinct
timestamps leaves the grouped rolling output unchanged. -/
theorem shuffle_invariance_witness :
    corrsExpr statHead 1 twinsPairSh = corrsExpr statHead 1 twinsPair :=
  (shuffle_invariance statHead 1 twinsPair twinsPairSh (by decide)
    (by decide)).1

/-- C3 counterexample: with two rows of one entity sharing the same
timestamp but different factor values, swapping the two input rows changes
the grouped rolling output — the re-sort on `date` resolves the tie by the
incoming row order, so the claimed shuffle-invariance for every input table
is false. -/
theorem shuffle_changes_output_on_ties :
    twinsDupSh.Perm twinsDup
    ∧ ¬ (corrsExpr statHead 1 twinsDupSh = corrsExpr statHead 1 twinsDup) :=
  ⟨by decide, by decide⟩
